import Mathlib

/-!
# Vehicle check-in dashboard: the aggregation done in `App.js`

A shallow embedding of the logic of `src/dashboard/src/App.js`: the helper
`calculateDuration` and the `complete` callback handed to `Papa.parse`
(valid rows, current vehicles, totals, the labels of the last seven days and
the per-label counts), followed by theorems about them.

Modelling conventions.

* A parsed CSV row is an association list from header strings to string
  values; a header that the row lacks reads as `none` (JavaScript `undefined`).
* Time values are integers, milliseconds since the epoch.  Arithmetic on them
  is exact: neither the rounding of IEEE doubles (which needs magnitudes
  above `2^53`) nor the `RangeError` of `toISOString` outside the Date range
  of `±8.64e15` ms is modelled.
* A JavaScript number that may be `NaN` is an `Option Int`, `none` being `NaN`.
* The clock (`new Date()`), the timestamp parser (`new Date(string)`) and the
  time-zone rules of the host are parameters.
-/

namespace Dashboard

/-! ## Rows -/

/-- One parsed CSV row: header string to field value. -/
abbrev Record := List (String × String)

/-- Field access `d[key]`: `none` stands for `undefined`. -/
def Record.get (d : Record) (key : String) : Option String :=
  d.lookup key

/-- Object spread with one overriding key, `{ ...v, key: value }`: an existing
key keeps its position and takes the new value, otherwise the key is appended. -/
def Record.set : Record → String → String → Record
  | [], key, value => [(key, value)]
  | (k, x) :: rest, key, value =>
      if k = key then (k, value) :: rest else (k, x) :: Record.set rest key value

/-- JavaScript truthiness of a field value: `undefined` and `""` are falsy. -/
def truthy : Option String → Bool
  | none => false
  | some s => s ≠ ""

/-- Test `s.startsWith(p)`. -/
def startsWith (s p : String) : Bool :=
  p.toList.isPrefixOf s.toList

/-! ## `calculateDuration` -/

/-- A number that may be `NaN` (`none`). -/
abbrev JSNum := Option Int

/-- Subtraction `a - b` of JavaScript numbers; `NaN` is absorbing. -/
def jsSub (a b : JSNum) : JSNum :=
  match a, b with
  | some x, some y => some (x - y)
  | _, _ => none

/-- The expression `Math.floor(x / k)`: real division, then the floor; `NaN` stays `NaN`. -/
def floorDiv : JSNum → Int → JSNum
  | none, _ => none
  | some v, k => some ⌊(v : ℚ) / (k : ℚ)⌋

/-- Number to string as done by a template literal. -/
def numToString : JSNum → String
  | none => "NaN"
  | some v => toString v

/-- The five numbers computed inside `calculateDuration`. -/
structure DurationParts where
  minutes : JSNum
  hours : JSNum
  days : JSNum
  weeks : JSNum
  months : JSNum
  deriving DecidableEq

/-- Lines 23 to 27 of `App.js`, from `diff = now - start`. -/
def durationParts (diff : JSNum) : DurationParts :=
  let minutes := floorDiv diff 60000
  let hours := floorDiv minutes 60
  let days := floorDiv hours 24
  let weeks := floorDiv days 7
  let months := floorDiv days 30
  { minutes := minutes, hours := hours, days := days, weeks := weeks, months := months }

/-- The template literal of line 28. -/
def renderParts (p : DurationParts) : String :=
  numToString p.minutes ++ ":" ++ numToString p.hours ++ ":" ++ numToString p.days ++ ":" ++
    numToString p.weeks ++ ":" ++ numToString p.months

/-- The function `calculateDuration(checkinTime)`.  `parse s` is the time value of
`new Date(s)` (`none` for an invalid date) and `now` the time value of `new Date()`. -/
def calculateDuration (parse : String → Option Int) (now : Int)
    (checkinTime : Option String) : String :=
  if !truthy checkinTime then "-"
  else
    let start : JSNum := checkinTime.bind parse
    let diff := jsSub (some now) start
    renderParts (durationParts diff)

/-! ## Calendar functions of `Date` -/

def msPerDay : Int := 86400000

/-- Day number of a time value, `floor(t / msPerDay)`. -/
def day (t : Int) : Int := t / msPerDay

/-- Milliseconds since the start of the day, `t modulo msPerDay`. -/
def timeWithinDay (t : Int) : Int := t % msPerDay

/-- Year, month (1 to 12) and day of the month (1 to 31) of a day number in the
proleptic Gregorian calendar, by 400-year eras starting on 1 March. -/
def civilFromDays (z0 : Int) : Int × Int × Int :=
  let z := z0 + 719468
  let era := z / 146097
  let doe := z % 146097
  let yoe := (doe - doe / 1460 + doe / 36524 - doe / 146096) / 365
  let doy := doe - (365 * yoe + yoe / 4 - yoe / 100)
  let mp := (5 * doy + 2) / 153
  let d := doy - (153 * mp + 2) / 5 + 1
  let m := if mp < 10 then mp + 3 else mp - 9
  let y := yoe + era * 400
  (if m ≤ 2 then y + 1 else y, m, d)

/-- Day number of a calendar date, the inverse of `civilFromDays`. -/
def daysFromCivil (y0 m d : Int) : Int :=
  let y := if m ≤ 2 then y0 - 1 else y0
  let era := y / 400
  let yoe := y % 400
  let doy := (153 * (if m > 2 then m - 3 else m + 9) + 2) / 5 + d - 1
  let doe := yoe * 365 + yoe / 4 - yoe / 100 + doy
  era * 146097 + doe - 719468

def yearFromTime (t : Int) : Int := (civilFromDays (day t)).1

/-- Month of a time value, 0 for January. -/
def monthFromTime (t : Int) : Int := (civilFromDays (day t)).2.1 - 1

def dateFromTime (t : Int) : Int := (civilFromDays (day t)).2.2

/-- The operation `MakeDay(year, month, date)`: the day number of the first of the
month plus `date - 1`, so a `date` outside the month rolls over. -/
def makeDay (year month date : Int) : Int :=
  daysFromCivil (year + month / 12) (month % 12 + 1) 1 + date - 1

def makeDate (dayNum time : Int) : Int := dayNum * msPerDay + time

/-- Decimal digits of `n`, left-padded with zeros to `width`. -/
def pad (width : Nat) (n : Nat) : String :=
  let s := toString n
  String.mk (List.replicate (width - s.length) '0') ++ s

/-- Year as printed by `toISOString`: four digits, or a sign and six digits
outside 0 to 9999. -/
def isoYear (y : Int) : String :=
  if 0 ≤ y ∧ y ≤ 9999 then pad 4 y.toNat
  else (if y < 0 then "-" else "+") ++ pad 6 y.natAbs

/-- Date part `YYYY-MM-DD` of `toISOString`, from the day number. -/
def isoDate (dayNum : Int) : String :=
  let c := civilFromDays dayNum
  isoYear c.1 ++ "-" ++ pad 2 c.2.1.toNat ++ "-" ++ pad 2 c.2.2.toNat

/-- Time part `HH:mm:ss.sssZ` of `toISOString`, from the milliseconds within the day. -/
def isoTime (ms : Int) : String :=
  let w := ms.toNat
  pad 2 (w / 3600000) ++ ":" ++ pad 2 (w / 60000 % 60) ++ ":" ++ pad 2 (w / 1000 % 60) ++
    "." ++ pad 3 (w % 1000) ++ "Z"

/-- The method `toISOString()`: the UTC rendering `YYYY-MM-DDTHH:mm:ss.sssZ`. -/
def toISOString (t : Int) : String :=
  isoDate (day t) ++ "T" ++ isoTime (timeWithinDay t)

/-- The expression `s.split("T")[0]`: the part of `s` before its first `T`. -/
def beforeT (s : String) : String :=
  String.mk (s.toList.takeWhile (fun c => c != 'T'))

/-- Time-zone rules of the host: the offset of local time from UTC in
milliseconds, looked up by a UTC time value and by a local time value. -/
structure TimeZone where
  offsetAtUTC : Int → Int
  offsetAtLocal : Int → Int

/-- The operation `LocalTime(t)`. -/
def localTime (tz : TimeZone) (t : Int) : Int := t + tz.offsetAtUTC t

/-- The operation `UTC(t)` on a local time value. -/
def utcOfLocal (tz : TimeZone) (t : Int) : Int := t - tz.offsetAtLocal t

/-- The method `getDate()`: day of the month in local time. -/
def getDate (tz : TimeZone) (t : Int) : Int := dateFromTime (localTime tz t)

/-- The method `setDate(dt)` on a date with time value `t`: the new time value. -/
def setDate (tz : TimeZone) (t dt : Int) : Int :=
  let tl := localTime tz t
  utcOfLocal tz (makeDate (makeDay (yearFromTime tl) (monthFromTime tl) dt) (timeWithinDay tl))

/-- Local calendar date of a time value, as `YYYY-MM-DD`.  Not computed by
`App.js`: it is the date that statements about "today in the local calendar"
refer to. -/
def localDateString (tz : TimeZone) (t : Int) : String :=
  beforeT (toISOString (localTime tz t))

/-! ## The `complete` callback -/

/-- Lines 47 to 53: the loop `for (let i = 6; i >= 0; i--)` pushing one label per `i`. -/
def last7Days (tz : TimeZone) (today : Int) : List String :=
  [6, 5, 4, 3, 2, 1, 0].map fun (i : Int) =>
    beforeT (toISOString (setDate tz today (getDate tz today - i)))

/-- Line 35: `results.data.filter(d => d["License Plate"])`. -/
def validRows (rows : List Record) : List Record :=
  rows.filter fun d => truthy (d.get "License Plate")

/-- Lines 37 and 38: the rows still on site, each with its `duration`. -/
def currentVehicles (parse : String → Option Int) (now : Int) (data : List Record) :
    List Record :=
  (data.filter fun d => !truthy (d.get "Actual Checkout Time")).map fun v =>
    v.set "duration" (calculateDuration parse now (v.get "Actual Checkin Time"))

/-- The test `d["Actual Checkin Time"]?.startsWith(date)` of line 56. -/
def checkinStartsWith (date : String) (d : Record) : Bool :=
  match d.get "Actual Checkin Time" with
  | none => false
  | some s => startsWith s date

/-- Lines 55 to 57: one count per label. -/
def dailyCounts (labels : List String) (data : List Record) : List Nat :=
  labels.map fun date => (data.filter (checkinStartsWith date)).length

structure Totals where
  current : Nat
  checkins : Nat
  checkouts : Nat
  deriving DecidableEq

structure ChartData where
  labels : List String
  data : List Nat
  deriving DecidableEq

/-- What the callback stores with `setVehicles`, `setTotals` and `setChartData`. -/
structure View where
  vehicles : List Record
  totals : Totals
  chartData : ChartData
  deriving DecidableEq

/-- The `complete` callback of `Papa.parse`, lines 34 to 60.  `now` is the clock
read by `calculateDuration` (one value for all calls of a run), `today` the
clock read on line 48. -/
def complete (parse : String → Option Int) (tz : TimeZone) (now today : Int)
    (rows : List Record) : View :=
  let data := validRows rows
  let vehicles := currentVehicles parse now data
  let labels := last7Days tz today
  { vehicles := vehicles
    totals :=
      { current := vehicles.length
        checkins := data.length
        checkouts := (data.filter fun d => truthy (d.get "Actual Checkout Time")).length }
    chartData := { labels := labels, data := dailyCounts labels data } }

/-! ## Sample hosts used in the examples -/

/-- A host whose local time is `offset` milliseconds ahead of UTC all year. -/
def fixedZone (offset : Int) : TimeZone := ⟨fun _ => offset, fun _ => offset⟩

/-- A host on UTC all year. -/
def utcZone : TimeZone := fixedZone 0

/-- A host ten hours ahead of UTC all year (Australia/Brisbane). -/
def brisbaneZone : TimeZone := fixedZone 36000000

/-- Europe/London in the spring and summer of 2024: summer time starts on
2024-03-31 at 01:00 UTC, offset 0 before, one hour after.  The local clock
jumps from 01:00 to 02:00. -/
def londonZone : TimeZone :=
  ⟨fun t => if 1711846800000 ≤ t then 3600000 else 0,
   fun t => if 1711850400000 ≤ t then 3600000 else 0⟩

/-- A timestamp parser that knows `2024-05-01T10:00`, read as UTC, and rejects
every other string. -/
def sampleParse (s : String) : Option Int :=
  if s = "2024-05-01T10:00" then some 1714557600000 else none

/-! ## Auxiliary lemmas -/

theorem Record.get_set_self (d : Record) (k v : String) : (d.set k v).get k = some v := by
  induction d with
  | nil => simp [Record.set, Record.get, List.lookup]
  | cons p rest ih =>
    obtain ⟨a, b⟩ := p
    by_cases h : a = k
    · simp [Record.set, Record.get, List.lookup, h]
    · have h' : (k == a) = false := by simpa using fun e => h e.symm
      simp only [Record.set, h, if_false, Record.get, List.lookup, h']
      exact ih

theorem Record.get_set_of_ne (d : Record) (k v k' : String) (hk : k' ≠ k) :
    (d.set k v).get k' = d.get k' := by
  induction d with
  | nil =>
    have h' : (k' == k) = false := by simpa using hk
    simp [Record.set, Record.get, List.lookup, h']
  | cons p rest ih =>
    obtain ⟨a, b⟩ := p
    by_cases h : a = k
    · subst h
      have h' : (k' == a) = false := by simpa using hk
      simp [Record.set, Record.get, List.lookup, h']
    · simp only [Record.set, h, if_false, Record.get, List.lookup]
      cases hka : k' == a
      · exact ih
      · rfl

theorem truthy_eq (o : Option String) : truthy o = (o != none && o != some "") := by
  cases o with
  | none => rfl
  | some s =>
    by_cases h : s = ""
    · subst h; decide
    · simp [truthy, h]

theorem not_truthy_eq (o : Option String) : (!truthy o) = (o == none || o == some "") := by
  cases o with
  | none => rfl
  | some s =>
    by_cases h : s = ""
    · subst h; decide
    · simp [truthy, h]

/-- On an integer, `Math.floor(v / k)` is integer division rounding down. -/
theorem floorDiv_some (v : Int) (k : Nat) :
    floorDiv (some v) (k : Int) = some (v / (k : Int)) := by
  simp only [floorDiv]
  congr 1
  exact_mod_cast Rat.floor_intCast_div_natCast v k

theorem durationParts_some (e : Int) :
    durationParts (some e) =
      { minutes := some (e / 60000), hours := some (e / 60000 / 60),
        days := some (e / 60000 / 60 / 24), weeks := some (e / 60000 / 60 / 24 / 7),
        months := some (e / 60000 / 60 / 24 / 30) } := by
  have h := fun (v : Int) (k : Nat) => floorDiv_some v k
  simp only [durationParts]
  rw [show (60000 : Int) = ((60000 : Nat) : Int) from rfl,
    show (60 : Int) = ((60 : Nat) : Int) from rfl,
    show (24 : Int) = ((24 : Nat) : Int) from rfl, show (7 : Int) = ((7 : Nat) : Int) from rfl,
    show (30 : Int) = ((30 : Nat) : Int) from rfl]
  simp only [h]

theorem calculateDuration_of_parsed (parse : String → Option Int) (now : Int) (s : String)
    (t : Int) (hs : s ≠ "") (hp : parse s = some t) :
    calculateDuration parse now (some s) = renderParts (durationParts (some (now - t))) := by
  simp [calculateDuration, truthy, hs, hp, jsSub]

theorem validRows_validRows (rows : List Record) :
    validRows (validRows rows) = validRows rows := by
  simp [validRows, List.filter_filter]

theorem length_eq_filter_not_add_filter {α : Type} (p : α → Bool) (l : List α) :
    l.length = (l.filter fun a => !p a).length + (l.filter p).length := by
  induction l with
  | nil => rfl
  | cons a l ih =>
    cases h : p a <;> simp [List.filter, h] <;> omega

theorem dailyCounts_length (labels : List String) (data : List Record) :
    (dailyCounts labels data).length = labels.length := by
  simp [dailyCounts]

theorem last7Days_length (tz : TimeZone) (today : Int) : (last7Days tz today).length = 7 := by
  simp [last7Days]

theorem checkinStartsWith_eq (date : String) (d : Record) :
    checkinStartsWith date d =
      match Record.get d "Actual Checkin Time" with
      | some s => decide (date.toList <+: s.toList)
      | none => false := by
  unfold checkinStartsWith
  cases Record.get d "Actual Checkin Time" with
  | none => rfl
  | some s =>
    simp only [startsWith]
    rw [Bool.eq_iff_iff]
    simp

theorem beforeT_append (a b : String) (h : ∀ c ∈ a.toList, c ≠ 'T') :
    beforeT (a ++ "T" ++ b) = a := by
  have h1 : (a ++ "T" ++ b).toList = a.toList ++ 'T' :: b.toList := by
    simp [String.toList, String.data_append]
  rw [beforeT, h1, List.takeWhile_append_of_pos]
  · simp [List.takeWhile]
  · intro c hc
    simpa using h c hc

/-- The loop body `d.setDate(today.getDate() - i)` moves the local date back by
`i` days and keeps the local time of day.  Stated for a local day number `D`
whose calendar date is known. -/
theorem setDate_of_day (tz : TimeZone) (today i D y m d : Int)
    (hD : day (localTime tz today) = D) (hc : civilFromDays D = (y, m, d))
    (hm : daysFromCivil (y + (m - 1) / 12) ((m - 1) % 12 + 1) 1 + d - 1 = D) :
    setDate tz today (getDate tz today - i) =
      utcOfLocal tz ((D - i) * msPerDay + timeWithinDay (localTime tz today)) := by
  simp only [setDate, getDate, yearFromTime, monthFromTime, dateFromTime, hD, hc, makeDate,
    makeDay]
  congr 2
  rw [← hm]
  ring

/-- On a host with a constant UTC offset of less than a day, at any instant whose
UTC date is 2024-05-01 (day number 19844), the label pushed for loop index `i`
is the date of day `19844 - i`. -/
theorem label_fixedZone_2024_05_01 (c today : Int) (hc0 : -86400000 < c)
    (hc1 : c < 86400000) (h0 : 1714521600000 ≤ today) (h1 : today < 1714608000000) (i : Int)
    (hT : ∀ ch ∈ (isoDate (19844 - i)).toList, ch ≠ 'T') :
    beforeT (toISOString (setDate (fixedZone c) today (getDate (fixedZone c) today - i))) =
      isoDate (19844 - i) := by
  have hl : localTime (fixedZone c) today = today + c := rfl
  have hcases :
      day (today + c) = 19843 ∨ day (today + c) = 19844 ∨ day (today + c) = 19845 := by
    simp only [day, msPerDay]; omega
  have hset : setDate (fixedZone c) today (getDate (fixedZone c) today - i) =
      today - i * 86400000 := by
    rcases hcases with hD | hD | hD
    · rw [setDate_of_day (fixedZone c) today i 19843 2024 4 30 (by rw [hl]; exact hD)
        (by decide) (by decide), hl]
      simp only [utcOfLocal, fixedZone, timeWithinDay, msPerDay]
      simp only [day, msPerDay] at hD
      omega
    · rw [setDate_of_day (fixedZone c) today i 19844 2024 5 1 (by rw [hl]; exact hD)
        (by decide) (by decide), hl]
      simp only [utcOfLocal, fixedZone, timeWithinDay, msPerDay]
      simp only [day, msPerDay] at hD
      omega
    · rw [setDate_of_day (fixedZone c) today i 19845 2024 5 2 (by rw [hl]; exact hD)
        (by decide) (by decide), hl]
      simp only [utcOfLocal, fixedZone, timeWithinDay, msPerDay]
      simp only [day, msPerDay] at hD
      omega
  have hday2 : day (today - i * 86400000) = 19844 - i := by
    simp only [day, msPerDay]; omega
  rw [hset, toISOString, hday2]
  exact beforeT_append _ _ hT

theorem last7Days_fixedZone_2024_05_01 (c today : Int) (hc0 : -86400000 < c)
    (hc1 : c < 86400000) (h0 : 1714521600000 ≤ today) (h1 : today < 1714608000000) :
    last7Days (fixedZone c) today =
      ["2024-04-25", "2024-04-26", "2024-04-27", "2024-04-28", "2024-04-29", "2024-04-30",
        "2024-05-01"] := by
  have h := label_fixedZone_2024_05_01 c today hc0 hc1 h0 h1
  simp only [last7Days, List.map_cons, List.map_nil]
  rw [h 6 (by decide), h 5 (by decide), h 4 (by decide), h 3 (by decide), h 2 (by decide),
    h 1 (by decide), h 0 (by decide)]
  decide

theorem countP_le_one_of_nodup {α : Type} (p : α → Bool) (l : List α) (hnd : l.Nodup)
    (huniq : ∀ a ∈ l, ∀ b ∈ l, p a = true → p b = true → a = b) : l.countP p ≤ 1 := by
  induction l with
  | nil => simp
  | cons a l ih =>
    rw [List.nodup_cons] at hnd
    have ih' := ih hnd.2 fun x hx y hy => huniq x (List.mem_cons_of_mem _ hx) y
      (List.mem_cons_of_mem _ hy)
    cases hpa : p a
    · rw [List.countP_cons_of_neg _ _ (by simp [hpa])]
      exact ih'
    · rw [List.countP_cons_of_pos _ _ hpa]
      have h0 : l.countP p = 0 := by
        rw [List.countP_eq_zero]
        intro b hb hpb
        have := huniq a (List.mem_cons_self _ _) b (List.mem_cons_of_mem _ hb) hpa hpb
        exact hnd.1 (this ▸ hb)
      omega

theorem dailyCounts_cons (labels : List String) (d : Record) (data : List Record) :
    (dailyCounts labels (d :: data)).sum =
      labels.countP (fun l => checkinStartsWith l d) + (dailyCounts labels data).sum := by
  induction labels with
  | nil => simp [dailyCounts]
  | cons l ls ih =>
    simp only [dailyCounts, List.map_cons, List.sum_cons] at ih ⊢
    rw [ih, List.countP_cons, List.filter_cons]
    cases h : checkinStartsWith l d <;> simp <;> omega

theorem checkinStartsWith_truthy (l : String) (d : Record) (hl : l ≠ "")
    (h : checkinStartsWith l d = true) : truthy (Record.get d "Actual Checkin Time") = true := by
  rw [checkinStartsWith_eq] at h
  cases hs : Record.get d "Actual Checkin Time" with
  | none => simp [hs] at h
  | some s =>
    simp only [hs, decide_eq_true_eq] at h
    have hs' : s ≠ "" := by
      rintro rfl
      have h0 : l.toList = [] := List.prefix_nil.mp h
      exact hl (String.ext h0)
    simp [truthy, hs']

theorem checkinStartsWith_unique (a b : String) (d : Record) (hab : a.length = b.length)
    (ha : checkinStartsWith a d = true) (hb : checkinStartsWith b d = true) : a = b := by
  rw [checkinStartsWith_eq] at ha hb
  cases hs : Record.get d "Actual Checkin Time" with
  | none => simp [hs] at ha
  | some s =>
    simp only [hs, decide_eq_true_eq] at ha hb
    have hl : a.toList.length = b.toList.length := hab
    exact String.ext ((List.prefix_of_prefix_length_le ha hb (le_of_eq hl)).eq_of_length hl)

/-- When the labels are pairwise distinct, non-empty and of one length, no row is
counted twice: the counts sum to at most the number of rows with a non-empty
Actual Checkin Time. -/
theorem dailyCounts_sum_le_of_nodup (labels : List String) (data : List Record) (n : Nat)
    (hn : 0 < n) (hlen : ∀ l ∈ labels, l.length = n) (hnd : labels.Nodup) :
    (dailyCounts labels data).sum ≤
      data.countP (fun d => truthy (Record.get d "Actual Checkin Time")) := by
  induction data with
  | nil => simp [dailyCounts]
  | cons d ds ih =>
    rw [dailyCounts_cons, List.countP_cons]
    have h1 : labels.countP (fun l => checkinStartsWith l d) ≤ 1 :=
      countP_le_one_of_nodup _ _ hnd fun a ha b hb hpa hpb =>
        checkinStartsWith_unique a b d ((hlen a ha).trans (hlen b hb).symm) hpa hpb
    cases hq : truthy (Record.get d "Actual Checkin Time")
    · have h0 : labels.countP (fun l => checkinStartsWith l d) = 0 := by
        rw [List.countP_eq_zero]
        intro l hl hp
        have hne : l ≠ "" := by
          rintro rfl
          have := hlen "" hl
          simp at this
          omega
        rw [checkinStartsWith_truthy l d hne (by simpa using hp)] at hq
        exact Bool.noConfusion hq
      rw [h0]
      simpa using ih
    · simp only [if_true]
      omega

/-! ## Totals -/

/-- C1: for every sequence of parsed rows the stored totals satisfy
`checkins = current + checkouts`, where `checkins` counts the rows with a
non-empty License Plate, `current` those of them whose Actual Checkout Time is
absent or empty, and `checkouts` those of them whose Actual Checkout Time is
non-empty. -/
theorem totals_checkins_eq_current_add_checkouts (parse : String → Option Int) (tz : TimeZone)
    (now today : Int) (rows : List Record) :
    (let t := (complete parse tz now today rows).totals
     t.checkins = t.current + t.checkouts ∧
     t.checkins = rows.countP (fun d => truthy (d.get "License Plate")) ∧
     t.current = rows.countP (fun d =>
       truthy (d.get "License Plate") && !truthy (d.get "Actual Checkout Time")) ∧
     t.checkouts = rows.countP (fun d =>
       truthy (d.get "License Plate") && truthy (d.get "Actual Checkout Time"))) := by
  intro t
  refine ⟨?_, ?_, ?_, ?_⟩
  · show (validRows rows).length = (currentVehicles parse now (validRows rows)).length + _
    rw [currentVehicles, List.length_map]
    exact length_eq_filter_not_add_filter _ _
  · show (validRows rows).length = _
    rw [validRows, List.countP_eq_length_filter]
  · show (currentVehicles parse now (validRows rows)).length = _
    rw [currentVehicles, List.length_map, validRows, List.filter_filter,
      List.countP_eq_length_filter]
    congr 2
    funext d
    exact Bool.and_comm _ _
  · show ((validRows rows).filter _).length = _
    rw [validRows, List.filter_filter, List.countP_eq_length_filter]
    congr 2
    funext d
    exact Bool.and_comm _ _

/-! ## Current vehicles -/

/-- C2: the current-vehicles list corresponds, position by position, to the
subsequence (in input order) of the rows whose License Plate is non-empty and
whose Actual Checkout Time is absent or empty; each output element carries the
fields of its input row (every key other than `duration` reads the same) plus
the field `duration`, equal to `calculateDuration` of the row's Actual Checkin
Time. -/
theorem currentVehicles_spec (parse : String → Option Int) (now : Int) (rows : List Record) :
    (let onSite := rows.filter fun d =>
       (d.get "License Plate" != none && d.get "License Plate" != some "") &&
         (d.get "Actual Checkout Time" == none || d.get "Actual Checkout Time" == some "")
     onSite.Sublist rows ∧
     List.Forall₂
       (fun v o =>
         (∀ k, k ≠ "duration" → Record.get o k = Record.get v k) ∧
         Record.get o "duration" =
           some (calculateDuration parse now (Record.get v "Actual Checkin Time")))
       onSite (currentVehicles parse now (validRows rows))) := by
  intro onSite
  refine ⟨List.filter_sublist _, ?_⟩
  have h : currentVehicles parse now (validRows rows) = onSite.map fun v =>
      Record.set v "duration"
        (calculateDuration parse now (Record.get v "Actual Checkin Time")) := by
    simp only [currentVehicles, validRows, List.filter_filter, onSite]
    congr 2
    funext d
    rw [Bool.and_comm, not_truthy_eq, truthy_eq]
  rw [h, List.forall₂_map_right_iff, List.forall₂_same]
  intro v _
  exact ⟨fun k hk => Record.get_set_of_ne v _ _ k hk, Record.get_set_self v _ _⟩

/-- C5: every current vehicle whose Actual Checkin Time is absent or empty has
the duration `-`, whatever the clock and the parser. -/
theorem duration_placeholder_of_no_checkin (parse : String → Option Int) (now : Int)
    (rows : List Record) (o : Record) (ho : o ∈ currentVehicles parse now (validRows rows))
    (hc : Record.get o "Actual Checkin Time" = none ∨
      Record.get o "Actual Checkin Time" = some "") :
    Record.get o "duration" = some "-" := by
  simp only [currentVehicles, List.mem_map] at ho
  obtain ⟨v, _, rfl⟩ := ho
  rw [Record.get_set_self]
  rw [Record.get_set_of_ne _ _ _ _ (by decide)] at hc
  rcases hc with hc | hc <;> rw [hc] <;> rfl

/-- C5 at one row with an empty Actual Checkin Time. -/
theorem duration_placeholder_of_no_checkin_witness :
    Record.get [("License Plate", "AB12CDE"), ("Actual Checkin Time", ""), ("duration", "-")]
      "duration" = some "-" :=
  duration_placeholder_of_no_checkin sampleParse 1714557601000
    [[("License Plate", "AB12CDE"), ("Actual Checkin Time", "")]]
    [("License Plate", "AB12CDE"), ("Actual Checkin Time", ""), ("duration", "-")]
    (by decide) (Or.inr (by decide))

/-! ## Duration labels -/

/-- C3: for a non-empty check-in string that parses to `t`, with
`e = now - t`, `calculateDuration` is the decimal renderings of
`minutes = floor(e / 60000)`, `hours = floor(minutes / 60)`,
`days = floor(hours / 24)`, `weeks = floor(days / 7)` and
`months = floor(days / 30)` joined by `:` (floor division rounding down);
it is `0:0:0:0:0` when `0 ≤ e < 60000`, and all five numbers are negative when
`e < 0`. -/
theorem calculateDuration_parseable (parse : String → Option Int) (now : Int) (s : String)
    (t : Int) (hs : s ≠ "") (hp : parse s = some t) :
    (let e := now - t
     let minutes := Int.fdiv e 60000
     let hours := Int.fdiv minutes 60
     let days := Int.fdiv hours 24
     let weeks := Int.fdiv days 7
     let months := Int.fdiv days 30
     calculateDuration parse now (some s) =
       String.intercalate ":"
         [toString minutes, toString hours, toString days, toString weeks, toString months] ∧
     (0 ≤ e → e < 60000 → calculateDuration parse now (some s) = "0:0:0:0:0") ∧
     (e < 0 → minutes < 0 ∧ hours < 0 ∧ days < 0 ∧ weeks < 0 ∧ months < 0)) := by
  intro e minutes hours days weeks months
  have hm : minutes = e / 60000 := Int.fdiv_eq_ediv _ (by decide)
  have hh : hours = minutes / 60 := Int.fdiv_eq_ediv _ (by decide)
  have hd : days = hours / 24 := Int.fdiv_eq_ediv _ (by decide)
  have hw : weeks = days / 7 := Int.fdiv_eq_ediv _ (by decide)
  have hmo : months = days / 30 := Int.fdiv_eq_ediv _ (by decide)
  have hcalc := calculateDuration_of_parsed parse now s t hs hp
  rw [durationParts_some] at hcalc
  refine ⟨?_, ?_, ?_⟩
  · rw [hcalc, hmo, hw, hd, hh, hm]
    simp [renderParts, numToString, String.intercalate, String.intercalate.go,
      String.append_assoc]
  · intro h0 h1
    have : (now - t) / 60000 = 0 := by omega
    rw [hcalc, this]
    decide
  · intro hneg
    omega

/-- C3 at check-in `2024-05-01T10:00` and a clock one second later. -/
theorem calculateDuration_parseable_witness :
    calculateDuration sampleParse 1714557601000 (some "2024-05-01T10:00") = "0:0:0:0:0" :=
  (calculateDuration_parseable sampleParse 1714557601000 "2024-05-01T10:00" 1714557600000
    (by decide) (by decide)).2.1 (by decide) (by decide)

/-- C4, as stated, fails: on the non-empty string `yesterday`, which the parser
rejects, `calculateDuration` does not return `-`. -/
theorem calculateDuration_unparseable_not_placeholder :
    ("yesterday" ≠ "" ∧ sampleParse "yesterday" = none) ∧
      calculateDuration sampleParse 1714557601000 (some "yesterday") ≠ "-" := by
  decide

/-- C4, amended: for every non-empty check-in string that cannot be parsed as a
timestamp, `calculateDuration` returns `NaN:NaN:NaN:NaN:NaN`. -/
theorem calculateDuration_unparseable (parse : String → Option Int) (now : Int) (s : String)
    (hs : s ≠ "") (hp : parse s = none) :
    calculateDuration parse now (some s) = "NaN:NaN:NaN:NaN:NaN" := by
  simp [calculateDuration, truthy, hs, hp, jsSub, durationParts, floorDiv, renderParts,
    numToString]

/-- C4 amended, at the string `yesterday`. -/
theorem calculateDuration_unparseable_witness :
    calculateDuration sampleParse 1714557601000 (some "yesterday") = "NaN:NaN:NaN:NaN:NaN" :=
  calculateDuration_unparseable sampleParse 1714557601000 "yesterday" (by decide) (by decide)

/-- C10: for every integer number of elapsed milliseconds, negative ones
included, the chained floors give the total hours, days and weeks:
`hours = floor(e / 3600000)`, `days = floor(e / 86400000)` and
`weeks = floor(e / 604800000)`, the division being exact division of
rationals. -/
theorem durationParts_cumulative (e : Int) :
    (durationParts (some e)).hours = some ⌊(e : ℚ) / 3600000⌋ ∧
    (durationParts (some e)).days = some ⌊(e : ℚ) / 86400000⌋ ∧
    (durationParts (some e)).weeks = some ⌊(e : ℚ) / 604800000⌋ := by
  have h1 := Rat.floor_intCast_div_natCast e 3600000
  have h2 := Rat.floor_intCast_div_natCast e 86400000
  have h3 := Rat.floor_intCast_div_natCast e 604800000
  push_cast at h1 h2 h3
  rw [h1, h2, h3, durationParts_some]
  refine ⟨?_, ?_, ?_⟩ <;> simp only [Option.some.injEq] <;> omega

/-! ## Histogram -/

/-- C6, failing input.  In London at 2024-04-01 00:30 local time (2024-03-31
23:30 UTC), the night after the clocks went forward, the labels hold
`2024-03-31` twice, so they are not pairwise distinct, and end one day before
the local date; in Brisbane at 2024-05-01 08:00 local time the last label is
`2024-04-30`. -/
theorem last7Days_not_local_calendar :
    (last7Days londonZone 1711927800000 =
      ["2024-03-26", "2024-03-27", "2024-03-28", "2024-03-29", "2024-03-30", "2024-03-31",
        "2024-03-31"] ∧
      ¬ (last7Days londonZone 1711927800000).Nodup ∧
      localDateString londonZone 1711927800000 = "2024-04-01" ∧
      (last7Days londonZone 1711927800000).getLast? ≠
        some (localDateString londonZone 1711927800000)) ∧
    (last7Days brisbaneZone 1714514400000 =
      ["2024-04-24", "2024-04-25", "2024-04-26", "2024-04-27", "2024-04-28", "2024-04-29",
        "2024-04-30"] ∧
      localDateString brisbaneZone 1714514400000 = "2024-05-01" ∧
      (last7Days brisbaneZone 1714514400000).getLast? ≠
        some (localDateString brisbaneZone 1714514400000)) := by
  decide

/-- The part of the histogram that does not depend on the calendar: the chart has
7 labels and 7 counts; the count at index `i` is the number of rows with a
non-empty License Plate whose Actual Checkin Time is present and has label `i`
as a prefix; dropping the rows without an Actual Checkin Time leaves the chart
unchanged. -/
theorem chart_counts_aligned (parse : String → Option Int) (tz : TimeZone)
    (now today : Int) (rows : List Record) :
    (let chart := (complete parse tz now today rows).chartData
    chart.labels.length = 7 ∧ chart.data.length = 7 ∧
    (∀ (i : Nat) (hl : i < chart.labels.length) (hd : i < chart.data.length),
      chart.data.get ⟨i, hd⟩ = rows.countP fun d =>
        truthy (Record.get d "License Plate") &&
          (match Record.get d "Actual Checkin Time" with
           | some s => decide ((chart.labels.get ⟨i, hl⟩).toList <+: s.toList)
           | none => false)) ∧
    chart = (complete parse tz now today
      (rows.filter fun d => Record.get d "Actual Checkin Time" != none)).chartData) := by
  intro chart
  have hchart : chart =
      ChartData.mk (last7Days tz today) (dailyCounts (last7Days tz today) (validRows rows)) :=
    rfl
  refine ⟨?_, ?_, ?_, ?_⟩
  · rw [hchart]; exact last7Days_length tz today
  · rw [hchart]; simp only [dailyCounts_length]; exact last7Days_length tz today
  · intro i hl hd
    simp only [hchart, dailyCounts, List.get_eq_getElem, List.getElem_map, validRows,
      List.filter_filter, ← List.countP_eq_length_filter]
    congr 1
    funext d
    rw [checkinStartsWith_eq, Bool.and_comm]
  · rw [hchart]
    simp only [complete, validRows, dailyCounts, List.filter_filter]
    congr 2
    funext date
    congr 2
    funext d
    cases h : Record.get d "Actual Checkin Time" with
    | none => simp [checkinStartsWith, h]
    | some v =>
      have hv : (some v != none) = true := rfl
      simp [checkinStartsWith, h, hv]

/-- Where the scenario of one row checked in at `2024-05-01T09:00:00` does come out
as count 1 under `2024-05-01`: on a host with a constant UTC offset `c`, when
the UTC date of the clock is 2024-05-01. -/
theorem chart_scenario_of_utc_date (parse : String → Option Int) (now c t : Int)
    (hc0 : -86400000 < c) (hc1 : c < 86400000) (h0 : 1714521600000 ≤ t)
    (h1 : t < 1714608000000) :
    (complete parse (fixedZone c) now t
        [[("License Plate", "AB12CDE"),
          ("Actual Checkin Time", "2024-05-01T09:00:00")]]).chartData
      = { labels := ["2024-04-25", "2024-04-26", "2024-04-27", "2024-04-28", "2024-04-29",
            "2024-04-30", "2024-05-01"],
          data := [0, 0, 0, 0, 0, 0, 1] } := by
  simp only [complete, last7Days_fixedZone_2024_05_01 c t hc0 hc1 h0 h1]
  decide

/-- C7, failing input.  Today is 2024-05-01 in the local calendar and the one row
was checked in at `2024-05-01T09:00:00`, yet no label is `2024-05-01` and all
seven counts are 0: in Brisbane at 08:00 local time (2024-04-30 22:00 UTC), and
in London at 00:30 local summer time (2024-04-30 23:30 UTC). -/
theorem chart_scenario_fails_on_local_date :
    (localDateString brisbaneZone 1714514400000 = "2024-05-01" ∧
      (complete sampleParse brisbaneZone 1714514400000 1714514400000
        [[("License Plate", "AB12CDE"),
          ("Actual Checkin Time", "2024-05-01T09:00:00")]]).chartData
        = { labels := ["2024-04-24", "2024-04-25", "2024-04-26", "2024-04-27", "2024-04-28",
              "2024-04-29", "2024-04-30"],
            data := [0, 0, 0, 0, 0, 0, 0] }) ∧
    (localDateString londonZone 1714519800000 = "2024-05-01" ∧
      (complete sampleParse londonZone 1714519800000 1714519800000
        [[("License Plate", "AB12CDE"),
          ("Actual Checkin Time", "2024-05-01T09:00:00")]]).chartData
        = { labels := ["2024-04-24", "2024-04-25", "2024-04-26", "2024-04-27", "2024-04-28",
              "2024-04-29", "2024-04-30"],
            data := [0, 0, 0, 0, 0, 0, 0] }) := by
  decide

/-- C8, failing input.  In London at 2024-04-01 00:30 local time, one row checked
in at `2024-03-31T10:00` is counted under two labels: the counts sum to 2 while
one row has a non-empty Actual Checkin Time. -/
theorem dailyCounts_sum_exceeds_checkins :
    (let rows : List Record :=
       [[("License Plate", "AB12CDE"), ("Actual Checkin Time", "2024-03-31T10:00")]]
     let chart := (complete sampleParse londonZone 1711927800000 1711927800000 rows).chartData
     chart.data = [0, 0, 0, 0, 0, 1, 1] ∧ chart.data.sum = 2 ∧
       rows.countP (fun d => truthy (Record.get d "Actual Checkin Time")) = 1) := by
  decide

/-- C9: the stored vehicles, totals and chart are the ones computed from the rows
with every row of absent or empty License Plate removed; the single row with
plate `""` and check-in `2024-01-01` gives no vehicle, totals 0, 0, 0 and seven
zero counts. -/
theorem empty_plate_rows_dropped (parse : String → Option Int) (tz : TimeZone)
    (now today : Int) (rows : List Record) :
    complete parse tz now today rows =
      complete parse tz now today (rows.filter fun d =>
        !(d.get "License Plate" == none || d.get "License Plate" == some "")) ∧
    (let v := complete parse tz now today
        [[("License Plate", ""), ("Actual Checkin Time", "2024-01-01")]]
     v.vehicles = [] ∧ v.totals = ⟨0, 0, 0⟩ ∧ v.chartData.data = [0, 0, 0, 0, 0, 0, 0]) := by
  constructor
  · have h : (rows.filter fun d =>
        !(d.get "License Plate" == none || d.get "License Plate" == some "")) =
        validRows rows := by
      simp only [validRows]
      congr 1
      funext d
      rw [← not_truthy_eq, Bool.not_not]
    rw [h]
    simp only [complete, validRows_validRows]
  · have h : validRows [[("License Plate", ""), ("Actual Checkin Time", "2024-01-01")]] =
        [] := by
      decide
    simp only [complete, h]
    refine ⟨rfl, rfl, ?_⟩
    simp [dailyCounts, last7Days]

end Dashboard
